import Mathlib

/-!
# react-jsonschema-form: the field resolver and the state-synchronisation engine

A shallow embedding of `src/index.js`.  Components are modelled by what their
`render` hands to the child they delegate to, and by what their event handlers do
to `this.state` and to the callbacks received through `this.props`.

Modelling conventions:

* JavaScript values are the terms of `JSON`; a missing property reads as
  `JSON.undefined`, as property access does in JavaScript.  Numbers are integers:
  the code only ever tests a number for truthiness.
* A schema node is the record `Schema` of the properties the code reads.  Its
  `type` is a string tag or absent, as in the schema data model.
* The JSON-Schema validator is an external dependency and is a parameter
  (`Validator`).
* React itself is outside the repository.  `Instance`, `setState` and `flush` model the
  documented contract of `setState(partialState, callback)`: the partial state is
  merged into the state, and the callback runs once the merge is committed.  Inside a
  React event handler updates are batched (queued, committed when the handler
  returns); outside they are committed at once.  Both regimes are covered by the
  `batched` flag.
* An object used as component state is the list of its own properties (`Obj`).  The
  merge of a partial state is `Object.assign({}, state, partialState)`, assignment by
  assignment (`Target.put`), with what JavaScript does for the name `__proto__` and
  with the enumeration order of array-index names.
-/

namespace RJSF

/-! ## Values -/

/-- JavaScript values that occur as form data and inside schemas. -/
inductive JSON where
  | undefined : JSON
  | null : JSON
  | bool (b : Bool) : JSON
  | num (n : Int) : JSON
  | str (s : String) : JSON
  | arr (xs : List JSON) : JSON
  | obj (kvs : List (String × JSON)) : JSON

/-- JavaScript `ToBoolean`: `undefined`, `null`, `false`, `0` and `""` are falsy,
every other value (arrays and objects included, even empty ones) is truthy. -/
def JSON.truthy : JSON → Bool
  | .undefined => false
  | .null => false
  | .bool b => b
  | .num n => n != 0
  | .str s => s != ""
  | .arr _ => true
  | .obj _ => true

/-- JavaScript `a || b`: `a` when `a` is truthy, `b` otherwise. -/
def JSON.or (a b : JSON) : JSON :=
  if a.truthy then a else b

/-- JavaScript `typeof v === "string"`. -/
def JSON.isString : JSON → Bool
  | .str _ => true
  | _ => false

/-- JavaScript `typeof v === "boolean"`. -/
def JSON.isBoolean : JSON → Bool
  | .bool _ => true
  | _ => false

/-- JavaScript `Array.isArray(v)`. -/
def JSON.isArray : JSON → Bool
  | .arr _ => true
  | _ => false

/-- The properties of a schema node that the code reads.  An absent `default`,
`enum`, `title`, `description` or `required` is `JSON.undefined`. -/
structure Schema where
  type : Option String := none
  default : JSON := JSON.undefined
  enum : JSON := JSON.undefined
  title : JSON := JSON.undefined
  description : JSON := JSON.undefined
  required : JSON := JSON.undefined

/-! ## Widgets (`TextField`, `CheckboxField`, `SelectField`) -/

/-- The `value` attribute `TextField.render` gives its `<input type="text">`:
`_formData || schema.default`, where `_formData` is `formData` when
`typeof formData === "string"` and `undefined` otherwise. -/
def TextField.value (schema : Schema) (formData : JSON) : JSON :=
  let _formData := if formData.isString then formData else JSON.undefined
  _formData.or schema.default

/-- The `checked` attribute `CheckboxField.render` gives its `<input type="checkbox">`:
`Boolean(_formData || schema.default)`, where `_formData` is `formData` when
`typeof formData === "boolean"` and `false` otherwise. -/
def CheckboxField.checked (schema : Schema) (formData : JSON) : Bool :=
  let _formData := if formData.isBoolean then formData else JSON.bool false
  (_formData.or schema.default).truthy

/-- The `<option>` children `SelectField.render` produces,
`options.map((option, i) => <option key={i}>{option}</option>)`, each as the pair of its
key and its content; the second argument is the index of the first element (`0` for the
whole array). -/
def SelectField.optionElements : List JSON → Nat → List (Nat × JSON)
  | [], _ => []
  | option :: rest, i => (i, option) :: SelectField.optionElements rest (i + 1)

/-- The `value` attribute `SelectField.render` gives its `<select>`:
`formData || schema.default`. -/
def SelectField.value (schema : Schema) (formData : JSON) : JSON :=
  formData.or schema.default

/-! ## Field resolver (`SchemaField`) -/

/-- What `SchemaField.render` can end up instantiating: one of the five field
components, or a value that is not a component at all but a member of
`Object.prototype` reached through the prototype chain of the lookup table. -/
inductive FieldComponent where
  | StringField
  | ArrayField
  | BooleanField
  | ObjectField
  | UnsupportedField
  | inherited (key : String)
  deriving DecidableEq

/-- Own properties of the object literal returned by `SchemaField.fieldComponents`. -/
def SchemaField.fieldComponents (key : String) : Option FieldComponent :=
  if key = "string" then some .StringField
  else if key = "array" then some .ArrayField
  else if key = "boolean" then some .BooleanField
  else if key = "object" then some .ObjectField
  else if key = "date-time" then some .StringField
  else if key = "number" then some .StringField
  else none

/-- Property names every object literal inherits from `Object.prototype`.  Each of
them holds a function, except `__proto__`, which holds `Object.prototype` itself; all
are truthy. -/
def objectPrototypeKeys : List String :=
  ["constructor", "hasOwnProperty", "isPrototypeOf", "propertyIsEnumerable",
   "toLocaleString", "toString", "valueOf", "__proto__",
   "__defineGetter__", "__defineSetter__", "__lookupGetter__", "__lookupSetter__"]

/-- Property key used by `table[schema.type]`: the string itself, and `"undefined"`
when the schema has no `type`. -/
def propertyKey : Option String → String
  | some t => t
  | none => "undefined"

/-- JavaScript property access `SchemaField.fieldComponents[key]`: an own property of
the literal if there is one, else the member of `Object.prototype` of that name, else
`undefined` (`none`). -/
def SchemaField.lookup (key : String) : Option FieldComponent :=
  match SchemaField.fieldComponents key with
  | some c => some c
  | none => if key ∈ objectPrototypeKeys then some (.inherited key) else none

/-- The component `SchemaField.render` instantiates:
`SchemaField.fieldComponents[schema.type] || UnsupportedField`.  Every value the lookup
can find is truthy, so the fallback is taken exactly when the lookup finds nothing. -/
def SchemaField.render (schema : Schema) : FieldComponent :=
  match SchemaField.lookup (propertyKey schema.type) with
  | some c => c
  | none => .UnsupportedField

/-! ## Scalar adapters (`StringField`, `BooleanField`) -/

/-- The widget a scalar adapter delegates to, with the props that matter here. -/
inductive Widget where
  | SelectField (options : List JSON)
  | TextField (placeholder : JSON)
  | CheckboxField (placeholder : JSON)

/-- Mirror of `StringField.render`: a `SelectField` with `options = schema.enum` when
`Array.isArray(schema.enum)`, else a `TextField`. -/
def StringField.render (schema : Schema) : Widget :=
  match schema.enum with
  | .arr options => .SelectField options
  | _ => .TextField schema.description

/-- Mirror of `BooleanField.render`: always a `CheckboxField`; `schema.enum` is not read. -/
def BooleanField.render (schema : Schema) : Widget :=
  .CheckboxField schema.description

/-! ## `ArrayField` helpers -/

/-- Mirror of `ArrayField.defaultItem`: `itemsSchema.default` when it is truthy, else a
value chosen by `itemsSchema.type`. -/
def ArrayField.defaultItem (itemsSchema : Schema) : JSON :=
  if itemsSchema.default.truthy then itemsSchema.default
  else match itemsSchema.type with
    | some "string" => JSON.str ""
    | some "array" => JSON.arr []
    | some "boolean" => JSON.bool false
    | some "object" => JSON.obj []
    | _ => JSON.undefined

/-- JavaScript `xs.concat(arg)` with one argument: an array argument is spread (its
elements are appended), any other value is appended as a single element. -/
def concat (xs : List JSON) (arg : JSON) : List JSON :=
  match arg with
  | .arr ys => xs ++ ys
  | v => xs ++ [v]

/-- JavaScript `xs.filter((x, i) => p x i)`; the last argument is the index of the
first element (`0` for the whole array). -/
def filterWithIndex {α : Type} (p : α → Nat → Bool) : List α → Nat → List α
  | [], _ => []
  | x :: xs, i =>
    if p x i then x :: filterWithIndex p xs (i + 1) else filterWithIndex p xs (i + 1)

/-- JavaScript `xs.map((x, i) => f x i)`; the last argument is the index of the first
element (`0` for the whole array). -/
def mapWithIndex {α β : Type} (f : α → Nat → β) : List α → Nat → List β
  | [], _ => []
  | x :: xs, i => f x i :: mapWithIndex f xs (i + 1)

/-! ## Objects as component state -/

/-- A JavaScript object seen as its own enumerable properties in enumeration order: no
name twice, the names that are array indices first, in ascending order, then the other
names in the order of their creation.  The prototype of the object is not part of it. -/
abbrev Obj := List (String × JSON)

/-- Own-property lookup: `none` when the object has no own property `k`. -/
def Obj.get? : Obj → String → Option JSON
  | [], _ => none
  | (k', v) :: rest, k => if k' = k then some v else Obj.get? rest k

/-- The number a run of decimal digits denotes, continuing from `acc`; `none` when a
character is not a decimal digit. -/
def digitsValue : List Char → Nat → Option Nat
  | [], acc => some acc
  | c :: cs, acc =>
    if c.isDigit then digitsValue cs (acc * 10 + (c.toNat - 48)) else none

/-- The array index a property name denotes, if any: the name is the canonical decimal
numeral (not empty, no leading zero) of a number below `2^32 - 1`. -/
def arrayIndex? (k : String) : Option Nat :=
  match k.data with
  | [] => none
  | c :: cs =>
    if c = '0' ∧ cs ≠ [] then none
    else match digitsValue (c :: cs) 0 with
      | some n => if n < 4294967295 then some n else none
      | none => none

/-- Whether a property created under the name `k` is enumerated before an existing
property `k'`: array indices come first, in ascending order; any other name comes after
everything that exists. -/
def Obj.precedes (k k' : String) : Bool :=
  match arrayIndex? k, arrayIndex? k' with
  | some i, some j => decide (i < j)
  | some _, none => true
  | none, _ => false

/-- Creation of the own property `k` with value `v`, at its place in the enumeration
order. -/
def Obj.add : Obj → String → JSON → Obj
  | [], k, v => [(k, v)]
  | (k', v') :: rest, k, v =>
    if Obj.precedes k k' then (k, v) :: (k', v') :: rest
    else (k', v') :: Obj.add rest k v

/-- New value `v` for the existing own property `k`, which keeps its place. -/
def Obj.replace : Obj → String → JSON → Obj
  | [], _, _ => []
  | (k', v') :: rest, k, v =>
    if k' = k then (k', v) :: rest else (k', v') :: Obj.replace rest k v

/-- The object that `Object.assign` writes to: its own properties, and whether an
assignment to `__proto__` that finds no own property of that name still reaches the
accessor `Object.prototype.__proto__` (it does on a fresh `{}`). -/
structure Target where
  own : Obj
  setter : Bool

/-- The fresh object `{}`. -/
def Target.fresh : Target :=
  { own := [], setter := true }

/-- JavaScript assignment `target[k] = v`.  An own property `k` gets the new value.
Otherwise, for `k = "__proto__"` reaching the accessor, no own property is created: an
object or `null` becomes the prototype (after `null`, or an object with an own
`__proto__` property, the accessor is no longer reached) and any other value is ignored.
Otherwise the own property `k` is created. -/
def Target.put (t : Target) (k : String) (v : JSON) : Target :=
  if (Obj.get? t.own k).isSome then { t with own := Obj.replace t.own k v }
  else if k = "__proto__" ∧ t.setter = true then
    match v with
    | .null => { t with setter := false }
    | .obj kvs => { t with setter := (Obj.get? kvs "__proto__").isNone }
    | _ => t
  else { t with own := Obj.add t.own k v }

/-- JavaScript `Object.assign(target, source)`: every own property of `source`, in
enumeration order, is assigned to `target`. -/
def Obj.assign (target : Target) (source : Obj) : Target :=
  source.foldl (fun t kv => t.put kv.1 kv.2) target

/-- The merge `setState` performs, `Object.assign({}, state, partialState)`: the own
properties of the next state. -/
def mergeState (state partialState : Obj) : Obj :=
  (Obj.assign (Obj.assign Target.fresh state) partialState).own

/-! ## React component instances -/

/-- A mounted component instance during the handling of one event: `this.state`, the
partial states and callbacks passed to `setState` that are still waiting for the batch to
be committed, and the invocations made so far of callbacks received through
`this.props` (or of the console), oldest first. -/
structure Instance (σ κ : Type) where
  state : σ
  queue : List (σ → σ)
  after : List (σ → List κ)
  calls : List κ

/-- The instance as an event finds it: nothing queued, nothing invoked. -/
def Instance.mounted {σ κ : Type} (s : σ) : Instance σ κ :=
  { state := s, queue := [], after := [], calls := [] }

/-- Direct invocation of a props callback from inside a handler. -/
def Instance.call {σ κ : Type} (self : Instance σ κ) (c : κ) : Instance σ κ :=
  { self with calls := self.calls ++ [c] }

/-- React `this.setState(partialState, callback)`.  `merge` is the merge of the partial
state into a state; `callback` receives the state it finds in `this.state` when it runs
and returns the invocations it makes.  Batched: both are queued and `this.state` is left
alone.  Not batched: the merge is committed and the callback runs at once. -/
def Instance.setState {σ κ : Type} (batched : Bool) (self : Instance σ κ)
    (merge : σ → σ) (callback : σ → List κ) : Instance σ κ :=
  if batched then
    { self with queue := self.queue ++ [merge], after := self.after ++ [callback] }
  else
    let s := merge self.state
    { self with state := s, calls := self.calls ++ callback s }

/-- End of the batch: the queued partial states are merged in order, then the queued
callbacks run in order, each seeing the committed state. -/
def Instance.flush {σ κ : Type} (self : Instance σ κ) : Instance σ κ :=
  let s := self.queue.foldl (fun s merge => merge s) self.state
  { state := s, queue := [], after := [],
    calls := self.calls ++ (self.after.map (fun callback => callback s)).flatten }

/-- Run an event handler on a mounted instance until it has returned and every update
it requested is committed: the resulting state and the invocations made. -/
def dispatch {σ κ : Type} (handler : Instance σ κ → Instance σ κ) (s : σ) : σ × List κ :=
  let self := (handler (Instance.mounted s)).flush
  (self.state, self.calls)

/-! ## `ArrayField` -/

/-- State of an `ArrayField`: `{items}`. -/
structure ArrayState where
  items : List JSON

/-- Mirror of `ArrayField.asyncSetState`:
`this.setState(state, _ => this.props.onChange(this.state.items))`.  The invocations
recorded are the arguments handed to `this.props.onChange`. -/
def ArrayField.asyncSetState (batched : Bool) (self : Instance ArrayState (List JSON))
    (merge : ArrayState → ArrayState) : Instance ArrayState (List JSON) :=
  self.setState batched merge (fun state => [state.items])

/-- Mirror of `ArrayField.onAddClick`; `itemsSchema` is `this.props.schema.items`. -/
def ArrayField.onAddClick (batched : Bool) (itemsSchema : Schema)
    (self : Instance ArrayState (List JSON)) : Instance ArrayState (List JSON) :=
  let items := concat self.state.items (ArrayField.defaultItem itemsSchema)
  self.setState batched (fun _ => { items := items }) (fun _ => [])

/-- Mirror of `ArrayField.onDropClick`. -/
def ArrayField.onDropClick (batched : Bool) (index : Nat)
    (self : Instance ArrayState (List JSON)) : Instance ArrayState (List JSON) :=
  let items := filterWithIndex (fun _ i => i != index) self.state.items 0
  self.setState batched (fun _ => { items := items }) (fun _ => [])

/-- Mirror of `ArrayField.onChange`. -/
def ArrayField.onChange (batched : Bool) (index : Nat) (value : JSON)
    (self : Instance ArrayState (List JSON)) : Instance ArrayState (List JSON) :=
  let items := mapWithIndex (fun item i => if index = i then value else item) self.state.items 0
  ArrayField.asyncSetState batched self (fun _ => { items := items })

/-! ## `ObjectField` -/

/-- Mirror of `ObjectField.asyncSetState`:
`this.setState(state, _ => this.props.onChange(this.state))`.  The state of an
`ObjectField` is the object itself; the invocations recorded are the arguments handed to
`this.props.onChange`. -/
def ObjectField.asyncSetState (batched : Bool) (self : Instance Obj Obj) (state : Obj) :
    Instance Obj Obj :=
  self.setState batched (fun s => mergeState s state) (fun s => [s])

/-- Mirror of `ObjectField.onChange`: `this.asyncSetState({[name]: value})`. -/
def ObjectField.onChange (batched : Bool) (name : String) (value : JSON)
    (self : Instance Obj Obj) : Instance Obj Obj :=
  ObjectField.asyncSetState batched self [(name, value)]

/-! ## `Form` -/

/-- The three values of `state.status`. -/
inductive Status where
  | initial
  | editing
  | submitted
  deriving DecidableEq

/-- One entry of the validator's `errors` array. -/
structure ValidationError where
  property : String
  message : String
  deriving DecidableEq

/-- State of a `Form`: `{status, formData, edit, errors}`. -/
structure FormState where
  status : Status
  formData : JSON
  edit : Bool
  errors : List ValidationError

/-- The props of a `Form` that its handlers read: the root schema, and whether each of
the optional callbacks is supplied. -/
structure FormProps where
  schema : Schema
  onChange : Bool
  onSubmit : Bool
  onError : Bool

/-- What a `Form` can invoke: the three host callbacks, and `console.error`. -/
inductive Call where
  | onChange (state : FormState)
  | onSubmit (state : FormState)
  | onError (errors : List ValidationError)
  | consoleError (errors : List ValidationError)

/-- The external validator: `new Validator().validate(formData, schema).errors`. -/
abbrev Validator := JSON → Schema → List ValidationError

/-- Mirror of `Form.validate`. -/
def Form.validate (validator : Validator) (props : FormProps) (formData : JSON) :
    List ValidationError :=
  validator formData props.schema

/-- Mirror of `Form.onChange`. -/
def Form.onChange (batched : Bool) (validator : Validator) (props : FormProps)
    (formData : JSON) (self : Instance FormState Call) : Instance FormState Call :=
  self.setState batched
    (fun s => { s with status := .editing, formData := formData,
                       errors := Form.validate validator props formData })
    (fun state => if props.onChange then [Call.onChange state] else [])

/-- Mirror of `Form.onSubmit`.  `Object.keys(errors).length > 0` on the array `errors`
is `errors.length > 0`. -/
def Form.onSubmit (batched : Bool) (validator : Validator) (props : FormProps)
    (self : Instance FormState Call) : Instance FormState Call :=
  let self := self.setState batched (fun s => { s with status := .submitted }) (fun _ => [])
  let errors := Form.validate validator props self.state.formData
  if errors.length > 0 then
    self.setState batched (fun s => { s with errors := errors })
      (fun _ => if props.onError then [Call.onError errors] else [Call.consoleError errors])
  else
    let self := if props.onSubmit then self.call (Call.onSubmit self.state) else self
    self.setState batched (fun s => { s with status := .initial }) (fun _ => [])

/-! ## A form around an array field -/

/-- The three operations of an `ArrayField`: the add control, the removal control of
the item at `index`, and a change reported by the field of the item at `index`. -/
inductive ArrayEvent where
  | add
  | remove (index : Nat)
  | update (index : Nat) (value : JSON)

/-- The handler each operation runs. -/
def ArrayField.handle (batched : Bool) (itemsSchema : Schema) :
    ArrayEvent → Instance ArrayState (List JSON) → Instance ArrayState (List JSON)
  | .add => ArrayField.onAddClick batched itemsSchema
  | .remove index => ArrayField.onDropClick batched index
  | .update index value => ArrayField.onChange batched index value

/-- The component tree `Form > SchemaField > ObjectField > SchemaField > ArrayField`:
the state of the form, of its root object field, and of the array field rendered for one
property of that object. -/
structure Page where
  form : FormState
  object : Obj
  array : ArrayState

/-- The object field receives, through the `onChange` it bound to `name`, each value the
array field handed to `this.props.onChange`. -/
def Page.notifyObject (batched : Bool) (name : String) (values : List (List JSON))
    (object : Obj) : Obj × List Obj :=
  values.foldl
    (fun acc items =>
      let r := dispatch (ObjectField.onChange batched name (JSON.arr items)) acc.1
      (r.1, acc.2 ++ r.2))
    (object, [])

/-- The form receives, through the `onChange` it gave its root field, each value the
object field handed to `this.props.onChange`. -/
def Page.notifyForm (batched : Bool) (validator : Validator) (props : FormProps)
    (values : List Obj) (form : FormState) : FormState × List Call :=
  values.foldl
    (fun acc object =>
      let r := dispatch (Form.onChange batched validator props (JSON.obj object)) acc.1
      (r.1, acc.2 ++ r.2))
    (form, [])

/-- One operation of the array field, followed bottom-up through its ancestors: the
resulting tree and the invocations of host callbacks. -/
def Page.arrayEvent (batched : Bool) (validator : Validator) (props : FormProps)
    (name : String) (itemsSchema : Schema) (ev : ArrayEvent) (page : Page) :
    Page × List Call :=
  let a := dispatch (ArrayField.handle batched itemsSchema ev) page.array
  let o := Page.notifyObject batched name a.2 page.object
  let f := Page.notifyForm batched validator props o.2 page.form
  ({ form := f.1, object := o.1, array := a.1 }, f.2)

/-! ## Sample inputs -/

/-- Props of the form of the submit scenario: the root schema is an object that
requires `name`, and the host supplies all three callbacks. -/
def hostProps : FormProps :=
  { schema := { type := some "object", required := JSON.arr [JSON.str "name"] },
    onChange := true, onSubmit := true, onError := true }

/-- A freshly mounted form around the document `formData`, not in edit mode. -/
def freshForm (formData : JSON) : FormState :=
  { status := .initial, formData := formData, edit := false, errors := [] }

/-! ## The submit handler -/

theorem dispatch_Form_onSubmit_state (batched : Bool) (validator : Validator)
    (props : FormProps) (st : FormState) :
    (dispatch (Form.onSubmit batched validator props) st).1.status =
      if validator st.formData props.schema = [] then Status.initial else Status.submitted := by
  cases h : validator st.formData props.schema <;> cases batched <;> cases hS : props.onSubmit <;>
    simp [dispatch, Form.onSubmit, Form.validate, Instance.setState, Instance.flush,
      Instance.mounted, Instance.call, h, hS]

theorem dispatch_Form_onSubmit_calls (batched : Bool) (validator : Validator)
    (props : FormProps) (st : FormState) :
    (dispatch (Form.onSubmit batched validator props) st).2 =
      if validator st.formData props.schema = [] then
        (if props.onSubmit = true then
          [Call.onSubmit (if batched = true then st else { st with status := Status.submitted })]
        else [])
      else
        (if props.onError = true then [Call.onError (validator st.formData props.schema)]
        else [Call.consoleError (validator st.formData props.schema)]) := by
  cases h : validator st.formData props.schema <;> cases batched <;>
    cases hS : props.onSubmit <;> cases hE : props.onError <;>
    simp [dispatch, Form.onSubmit, Form.validate, Instance.setState, Instance.flush,
      Instance.mounted, Instance.call, h, hS, hE]

/-- C1, as stated, fails on the submit scenario: with the document `{}`, for which
validation against the schema that requires `name` yields at least one error, the status
after the submit handler has returned is `submitted`, not `initial`.  The validator is
the external dependency: the statement holds of every validator that reports an error
for this document, and there are such validators. -/
theorem Form_onSubmit_keeps_submitted :
    (∀ validator : Validator, validator (JSON.obj []) hostProps.schema ≠ [] →
      (dispatch (Form.onSubmit true validator hostProps)
        (freshForm (JSON.obj []))).1.status = Status.submitted) ∧
    Status.submitted ≠ Status.initial ∧
    (∃ validator : Validator, validator (JSON.obj []) hostProps.schema ≠ []) := by
  refine ⟨?_, by decide, ⟨fun _ _ => [{ property := "instance", message := "" }], by simp⟩⟩
  intro validator h
  rw [dispatch_Form_onSubmit_state]
  exact if_neg h

/-- C1, amended: once the submit handler has returned and its updates are committed,
the status is `initial` when submit-time validation yields zero errors and `submitted`
when it yields one or more errors. -/
theorem Form_onSubmit_status (batched : Bool) (validator : Validator) (props : FormProps)
    (st : FormState) :
    (dispatch (Form.onSubmit batched validator props) st).1.status =
      if validator st.formData props.schema = [] then Status.initial else Status.submitted := by
  cases h : validator st.formData props.schema <;> cases batched <;> cases hS : props.onSubmit <;>
    simp [dispatch, Form.onSubmit, Form.validate, Instance.setState, Instance.flush,
      Instance.mounted, Instance.call, h, hS]

/-- C2, as stated, fails for a host that leaves a callback out, which the code allows.
Without `onSubmit`, a submit of the valid document `{name: "x"}` invokes no callback at
all; without `onError`, a submit of the invalid document `{}` invokes neither callback
and hands the error list to `console.error`.  Both hold of every validator that accepts
the first document and reports an error for the second. -/
theorem Form_onSubmit_optional_callbacks :
    (∀ validator : Validator,
      validator (JSON.obj [("name", JSON.str "x")]) hostProps.schema = [] →
      (dispatch (Form.onSubmit true validator { hostProps with onSubmit := false })
        (freshForm (JSON.obj [("name", JSON.str "x")]))).2 = []) ∧
    (∀ validator : Validator, validator (JSON.obj []) hostProps.schema ≠ [] →
      (dispatch (Form.onSubmit true validator { hostProps with onError := false })
        (freshForm (JSON.obj []))).2 =
        [Call.consoleError (validator (JSON.obj []) hostProps.schema)]) := by
  constructor
  · intro validator h
    rw [dispatch_Form_onSubmit_calls]
    exact (if_pos h).trans (if_neg (by decide))
  · intro validator h
    rw [dispatch_Form_onSubmit_calls]
    exact (if_neg h).trans (if_neg (by decide))

/-- C2, amended: for every document, root schema and host, a submit makes exactly one
invocation or none.  If validation yields no error, it invokes `onSubmit` once when the
host supplied it and nothing otherwise; `onError` is not invoked.  If validation yields
errors, it invokes `onError` with exactly that error list when the host supplied it, and
`console.error` with that list otherwise; `onSubmit` is not invoked. -/
theorem Form_onSubmit_callbacks (batched : Bool) (validator : Validator) (props : FormProps)
    (st : FormState) :
    (dispatch (Form.onSubmit batched validator props) st).2 =
      if validator st.formData props.schema = [] then
        (if props.onSubmit = true then
          [Call.onSubmit (if batched = true then st else { st with status := Status.submitted })]
        else [])
      else
        (if props.onError = true then [Call.onError (validator st.formData props.schema)]
        else [Call.consoleError (validator st.formData props.schema)]) := by
  cases h : validator st.formData props.schema <;> cases batched <;>
    cases hS : props.onSubmit <;> cases hE : props.onError <;>
    simp [dispatch, Form.onSubmit, Form.validate, Instance.setState, Instance.flush,
      Instance.mounted, Instance.call, h, hS, hE]

/-! ## Merging a child change into an object field -/

theorem Obj_get_replace_self (o : Obj) (k : String) (v : JSON)
    (h : (Obj.get? o k).isSome = true) : Obj.get? (Obj.replace o k v) k = some v := by
  induction o with
  | nil => simp [Obj.get?] at h
  | cons kv rest ih =>
    obtain ⟨k', v'⟩ := kv
    by_cases hk : k' = k
    · simp [Obj.replace, Obj.get?, hk]
    · simp only [Obj.get?, hk, if_false] at h
      simp [Obj.replace, Obj.get?, hk, ih h]

theorem Obj_get_replace_other (o : Obj) (k : String) (v : JSON) (k₀ : String)
    (h₀ : k₀ ≠ k) : Obj.get? (Obj.replace o k v) k₀ = Obj.get? o k₀ := by
  induction o with
  | nil => rfl
  | cons kv rest ih =>
    obtain ⟨k', v'⟩ := kv
    by_cases hk : k' = k
    · subst hk
      simp [Obj.replace, Obj.get?, Ne.symm h₀]
    · by_cases hk' : k' = k₀
      · subst hk'
        simp [Obj.replace, Obj.get?, hk]
      · simp [Obj.replace, Obj.get?, hk, hk', ih]

theorem Obj_get_add_self (o : Obj) (k : String) (v : JSON) (h : Obj.get? o k = none) :
    Obj.get? (Obj.add o k v) k = some v := by
  induction o with
  | nil => simp [Obj.add, Obj.get?]
  | cons kv rest ih =>
    obtain ⟨k', v'⟩ := kv
    by_cases hk : k' = k
    · simp [Obj.get?, hk] at h
    · simp only [Obj.get?, hk, if_false] at h
      by_cases hp : Obj.precedes k k' = true
      · simp [Obj.add, Obj.get?, hp]
      · simp [Obj.add, Obj.get?, hp, hk, ih h]

theorem Obj_get_add_other (o : Obj) (k : String) (v : JSON) (k₀ : String) (h₀ : k₀ ≠ k) :
    Obj.get? (Obj.add o k v) k₀ = Obj.get? o k₀ := by
  induction o with
  | nil => simp [Obj.add, Obj.get?, Ne.symm h₀]
  | cons kv rest ih =>
    obtain ⟨k', v'⟩ := kv
    by_cases hp : Obj.precedes k k' = true
    · simp [Obj.add, Obj.get?, hp, Ne.symm h₀]
    · by_cases hk' : k' = k₀
      · subst hk'
        simp [Obj.add, Obj.get?, hp]
      · simp [Obj.add, Obj.get?, hp, hk', ih]

theorem Target_put_other (t : Target) (k : String) (v : JSON) (k₀ : String) (h₀ : k₀ ≠ k) :
    Obj.get? (t.put k v).own k₀ = Obj.get? t.own k₀ := by
  unfold Target.put
  split
  · exact Obj_get_replace_other t.own k v k₀ h₀
  · split
    · split <;> rfl
    · exact Obj_get_add_other t.own k v k₀ h₀

theorem Target_put_self (t : Target) (k : String) (v : JSON) (hk : k ≠ "__proto__") :
    Obj.get? (t.put k v).own k = some v ∧ (t.put k v).setter = t.setter := by
  unfold Target.put
  split
  · next h => exact ⟨Obj_get_replace_self t.own k v h, rfl⟩
  · next h =>
    have hnone : Obj.get? t.own k = none := by
      cases hg : Obj.get? t.own k with
      | none => rfl
      | some w => simp [hg] at h
    simp only [hk, false_and, if_false, and_true]
    exact Obj_get_add_self t.own k v hnone

theorem Obj_get_assign_of_none (l : Obj) (t : Target) (k : String)
    (h : Obj.get? l k = none) : Obj.get? (Obj.assign t l).own k = Obj.get? t.own k := by
  induction l generalizing t with
  | nil => rfl
  | cons kv rest ih =>
    obtain ⟨k₁, v₁⟩ := kv
    by_cases hk : k₁ = k
    · simp [Obj.get?, hk] at h
    · simp only [Obj.get?, hk, if_false] at h
      have step := ih (t.put k₁ v₁) h
      simp only [Obj.assign, List.foldl_cons] at step ⊢
      rw [step]
      exact Target_put_other t k₁ v₁ k (Ne.symm hk)

theorem Obj_get_none_of_not_mem (l : Obj) (k : String) (h : k ∉ l.map Prod.fst) :
    Obj.get? l k = none := by
  induction l with
  | nil => rfl
  | cons kv rest ih =>
    obtain ⟨k₁, v₁⟩ := kv
    simp only [List.map_cons, List.mem_cons, not_or] at h
    simp [Obj.get?, Ne.symm h.1, ih h.2]

theorem Obj_get_assign_of_some (l : Obj) (t : Target) (k : String) (v : JSON)
    (hl : (l.map Prod.fst).Nodup) (hp : Obj.get? l "__proto__" = none)
    (h : Obj.get? l k = some v) : Obj.get? (Obj.assign t l).own k = some v := by
  induction l generalizing t with
  | nil => simp [Obj.get?] at h
  | cons kv rest ih =>
    obtain ⟨k₁, v₁⟩ := kv
    simp only [List.map_cons, List.nodup_cons] at hl
    have hk₁ : k₁ ≠ "__proto__" := by
      intro hc
      simp [Obj.get?, hc] at hp
    have hp' : Obj.get? rest "__proto__" = none := by
      simpa [Obj.get?, hk₁] using hp
    by_cases hk : k₁ = k
    · subst hk
      simp only [Obj.get?, if_true, Option.some.injEq] at h
      subst h
      have hnone := Obj_get_none_of_not_mem rest k₁ hl.1
      have step := Obj_get_assign_of_none rest (t.put k₁ v₁) k₁ hnone
      simp only [Obj.assign, List.foldl_cons] at step ⊢
      rw [step]
      exact (Target_put_self t k₁ v₁ hk₁).1
    · simp only [Obj.get?, hk, if_false] at h
      have step := ih (t.put k₁ v₁) hl.2 hp' h
      simpa only [Obj.assign, List.foldl_cons] using step

theorem Obj_get_assign_fresh (s : Obj) (k : String) (hs : (s.map Prod.fst).Nodup)
    (hp : Obj.get? s "__proto__" = none) :
    Obj.get? (Obj.assign Target.fresh s).own k = Obj.get? s k := by
  cases h : Obj.get? s k with
  | none => rw [Obj_get_assign_of_none s Target.fresh k h]; rfl
  | some v => exact Obj_get_assign_of_some s Target.fresh k v hs hp h

theorem dispatch_ObjectField_onChange (batched : Bool) (s : Obj) (n : String) (v : JSON) :
    dispatch (ObjectField.onChange batched n v) s =
      (mergeState s [(n, v)], [mergeState s [(n, v)]]) := by
  cases batched <;>
    simp [dispatch, ObjectField.onChange, ObjectField.asyncSetState, Instance.setState,
      Instance.flush, Instance.mounted]

/-- For a property name other than `__proto__` and a state without an own `__proto__`
property, a child change `(n, v)` hands the parent's `onChange` exactly one value, the
committed post-merge state; in it `n` is mapped to `v` and every other name is mapped to
what it was mapped to before. -/
theorem ObjectField_onChange_merges (batched : Bool) (s : Obj) (n : String) (v : JSON)
    (hs : (s.map Prod.fst).Nodup) (hp : Obj.get? s "__proto__" = none)
    (hn : n ≠ "__proto__") :
    (dispatch (ObjectField.onChange batched n v) s).2 =
      [(dispatch (ObjectField.onChange batched n v) s).1] ∧
    Obj.get? (dispatch (ObjectField.onChange batched n v) s).1 n = some v ∧
    ∀ k, k ≠ n →
      Obj.get? (dispatch (ObjectField.onChange batched n v) s).1 k = Obj.get? s k := by
  rw [dispatch_ObjectField_onChange]
  refine ⟨rfl, ?_, ?_⟩
  · simp only [mergeState, Obj.assign, List.foldl_cons, List.foldl_nil]
    exact (Target_put_self _ n v hn).1
  · intro k hk
    simp only [mergeState, Obj.assign, List.foldl_cons, List.foldl_nil]
    rw [Target_put_other _ n v k hk]
    exact Obj_get_assign_fresh s k hs hp

/-- The enumeration order of a merged state: a new array-index name is placed among
the array indices, before every other name; any other new name comes last; an existing
name keeps its place. -/
theorem mergeState_enumeration_order :
    mergeState [("1", JSON.str "x"), ("a", JSON.null)] [("0", JSON.str "u")] =
      [("0", JSON.str "u"), ("1", JSON.str "x"), ("a", JSON.null)] ∧
    mergeState [("1", JSON.str "x"), ("a", JSON.null)] [("01", JSON.str "u")] =
      [("1", JSON.str "x"), ("a", JSON.null), ("01", JSON.str "u")] ∧
    mergeState [("1", JSON.str "x"), ("a", JSON.null)] [("1", JSON.str "u")] =
      [("1", JSON.str "u"), ("a", JSON.null)] := by
  refine ⟨?_, ?_, ?_⟩ <;> rfl

/-- An own `__proto__` property of the state does not survive a merge: it is assigned
onto the fresh object like any property of the partial state. -/
theorem mergeState_drops_own_proto :
    mergeState [("__proto__", JSON.num 1), ("a", JSON.str "x")] [("a", JSON.str "y")] =
      [("a", JSON.str "y")] := by
  rfl

/-- C3 on the code, for the property name `__proto__`, which a schema parsed from JSON
can carry: the merge assigns the partial state onto the next state, the assignment
reaches the accessor `Object.prototype.__proto__` and creates no own property, so the
parent's `onChange` is handed a state in which `__proto__` is not mapped to the new
value: the state handed up is what it was before the change. -/
theorem ObjectField_onChange_proto_dropped :
    dispatch (ObjectField.onChange true "__proto__" (JSON.str "u")) [("a", JSON.str "x")] =
      ([("a", JSON.str "x")], [[("a", JSON.str "x")]]) ∧
    Obj.get?
      (dispatch (ObjectField.onChange true "__proto__" (JSON.str "u"))
        [("a", JSON.str "x")]).1 "__proto__" = none := by
  constructor <;> rfl

/-! ## Removing an array item -/

theorem filterWithIndex_eq_self {α : Type} (p : α → Nat → Bool) (xs : List α) (s : Nat)
    (h : ∀ x k, s ≤ k → p x k = true) : filterWithIndex p xs s = xs := by
  induction xs generalizing s with
  | nil => rfl
  | cons x xs ih =>
    have hx : p x s = true := h x s (Nat.le_refl s)
    have hrest : filterWithIndex p xs (s + 1) = xs :=
      ih (s + 1) (fun y k hk => h y k (Nat.le_of_succ_le hk))
    simp [filterWithIndex, hx, hrest]

theorem filterWithIndex_ne_eq_eraseIdx (xs : List JSON) (s i : Nat) :
    filterWithIndex (fun _ k => k != s + i) xs s = xs.eraseIdx i := by
  induction xs generalizing s i with
  | nil => simp [filterWithIndex]
  | cons x xs ih =>
    cases i with
    | zero =>
      have hrest : filterWithIndex (fun (_ : JSON) k => k != s + 0) xs (s + 1) = xs :=
        filterWithIndex_eq_self _ xs (s + 1) (fun _ k hk => by
          simp only [Nat.add_zero, bne_iff_ne, ne_eq]
          omega)
      simp only [filterWithIndex, Nat.add_zero, bne_self_eq_false, Bool.false_eq_true,
        if_false, List.eraseIdx_cons_zero]
      simpa using hrest
    | succ i =>
      have hne : (s != s + (i + 1)) = true := by
        simp only [bne_iff_ne, ne_eq]
        omega
      have hrest := ih (s + 1) i
      have hidx : s + 1 + i = s + (i + 1) := by omega
      rw [hidx] at hrest
      simp [filterWithIndex, hne, hrest]

theorem dispatch_ArrayField_onDropClick (batched : Bool) (xs : List JSON) (i : Nat) :
    dispatch (ArrayField.onDropClick batched i) { items := xs } =
      ({ items := xs.eraseIdx i }, []) := by
  have h := filterWithIndex_ne_eq_eraseIdx xs 0 i
  simp only [Nat.zero_add] at h
  cases batched <;>
    simp [dispatch, ArrayField.onDropClick, Instance.setState, Instance.flush,
      Instance.mounted, h]

/-- C4: for an index `i` inside the item sequence `xs`, `remove(i)` leaves a sequence
one shorter, in which every item formerly at an index `j < i` is still at `j` and every
item formerly at an index `j > i` is at `j - 1`. -/
theorem ArrayField_onDropClick_shifts (batched : Bool) (xs : List JSON) (i : Nat)
    (hi : i < xs.length) :
    (dispatch (ArrayField.onDropClick batched i) { items := xs }).1.items.length
      = xs.length - 1 ∧
    (∀ j, j < i →
      (dispatch (ArrayField.onDropClick batched i) { items := xs }).1.items[j]? = xs[j]?) ∧
    (∀ j, i < j → j < xs.length →
      (dispatch (ArrayField.onDropClick batched i) { items := xs }).1.items[j - 1]?
        = xs[j]?) := by
  rw [dispatch_ArrayField_onDropClick]
  refine ⟨?_, ?_, ?_⟩
  · simp [List.length_eraseIdx, hi]
  · intro j hj
    exact List.getElem?_eraseIdx_of_lt xs i j hj
  · intro j hj _
    have h := List.getElem?_eraseIdx_of_ge xs i (j - 1) (by omega)
    have hj1 : j - 1 + 1 = j := by omega
    rw [hj1] at h
    exact h

/-- Witness of C4: removing index 2 of five items makes the former index 3 the new
index 2. -/
theorem ArrayField_onDropClick_shifts_witness :
    2 < [JSON.str "a", JSON.str "b", JSON.str "c", JSON.str "d", JSON.str "e"].length ∧
    (dispatch (ArrayField.onDropClick true 2)
      { items := [JSON.str "a", JSON.str "b", JSON.str "c", JSON.str "d", JSON.str "e"] }
      ).1.items[3 - 1]? =
      [JSON.str "a", JSON.str "b", JSON.str "c", JSON.str "d", JSON.str "e"][3]? :=
  ⟨by decide,
   (ArrayField_onDropClick_shifts true
      [JSON.str "a", JSON.str "b", JSON.str "c", JSON.str "d", JSON.str "e"] 2
      (by decide)).2.2 3 (by decide) (by decide)⟩

/-! ## Adding an array item -/

theorem dispatch_ArrayField_onAddClick (batched : Bool) (itemsSchema : Schema)
    (xs : List JSON) :
    dispatch (ArrayField.onAddClick batched itemsSchema) { items := xs } =
      ({ items := concat xs (ArrayField.defaultItem itemsSchema) }, []) := by
  cases batched <;>
    simp [dispatch, ArrayField.onAddClick, Instance.setState, Instance.flush,
      Instance.mounted]

/-- When the synthesized default item is not itself an array, `add` yields the items
followed by exactly that one element. -/
theorem onAddClick_appends_non_array (batched : Bool) (itemsSchema : Schema)
    (xs : List JSON) (h : (ArrayField.defaultItem itemsSchema).isArray = false) :
    (dispatch (ArrayField.onAddClick batched itemsSchema) { items := xs }).1.items =
      xs ++ [ArrayField.defaultItem itemsSchema] := by
  rw [dispatch_ArrayField_onAddClick]
  cases hd : ArrayField.defaultItem itemsSchema <;> simp_all [concat, JSON.isArray]

/-- On no items and `items = {type: "string"}`, `add` yields `[""]`. -/
theorem onAddClick_string_items (batched : Bool) :
    (dispatch (ArrayField.onAddClick batched { type := some "string" }) { items := [] }).1.items
      = [JSON.str ""] := by
  rw [dispatch_ArrayField_onAddClick]
  simp [concat, ArrayField.defaultItem, JSON.truthy]

/-- C5 on the code, for items of type `array`: the synthesized default item is the
empty array, `concat` spreads it, and `add` leaves every item sequence as it was: no
element is gained and the length does not grow. -/
theorem ArrayField_onAddClick_array_items_unchanged (batched : Bool) (xs : List JSON) :
    ArrayField.defaultItem { type := some "array" } = JSON.arr [] ∧
    (dispatch (ArrayField.onAddClick batched { type := some "array" }) { items := xs }).1.items
      = xs ∧
    (dispatch (ArrayField.onAddClick batched { type := some "array" }) { items := xs }).1.items
      ≠ xs ++ [JSON.arr []] := by
  rw [dispatch_ArrayField_onAddClick]
  have hd : ArrayField.defaultItem { type := some "array" } = JSON.arr [] := by
    simp [ArrayField.defaultItem, JSON.truthy]
  refine ⟨hd, ?_, ?_⟩
  · simp [hd, concat]
  · simp [hd, concat]

/-! ## Default items -/

/-- C6, as stated, fails: for `{type: "number", default: 0}` a default is present, yet
`defaultItem` returns `undefined`, not `0`. -/
theorem ArrayField_defaultItem_falsy_default :
    ArrayField.defaultItem { type := some "number", default := JSON.num 0 } = JSON.undefined ∧
    ArrayField.defaultItem { type := some "number", default := JSON.num 0 } ≠ JSON.num 0 := by
  constructor <;> simp [ArrayField.defaultItem, JSON.truthy]

/-- C6, amended: `defaultItem` returns `items.default` whenever that default is truthy;
otherwise (no default, or a default that is `false`, `0`, `""` or `null`) it returns the
empty string for type `string`, the empty sequence for `array`, `false` for `boolean`, the
empty mapping for `object`, and `undefined` for every other type, an absent one
included. -/
theorem ArrayField_defaultItem_cases (itemsSchema : Schema) :
    (itemsSchema.default.truthy = true →
      ArrayField.defaultItem itemsSchema = itemsSchema.default) ∧
    (itemsSchema.default.truthy = false →
      (itemsSchema.type = some "string" →
        ArrayField.defaultItem itemsSchema = JSON.str "") ∧
      (itemsSchema.type = some "array" →
        ArrayField.defaultItem itemsSchema = JSON.arr []) ∧
      (itemsSchema.type = some "boolean" →
        ArrayField.defaultItem itemsSchema = JSON.bool false) ∧
      (itemsSchema.type = some "object" →
        ArrayField.defaultItem itemsSchema = JSON.obj []) ∧
      (itemsSchema.type ≠ some "string" → itemsSchema.type ≠ some "array" →
        itemsSchema.type ≠ some "boolean" → itemsSchema.type ≠ some "object" →
        ArrayField.defaultItem itemsSchema = JSON.undefined)) := by
  constructor
  · intro h
    simp [ArrayField.defaultItem, h]
  · intro h
    refine ⟨?_, ?_, ?_, ?_, ?_⟩
    · intro ht
      simp [ArrayField.defaultItem, h, ht]
    · intro ht
      simp [ArrayField.defaultItem, h, ht]
    · intro ht
      simp [ArrayField.defaultItem, h, ht]
    · intro ht
      simp [ArrayField.defaultItem, h, ht]
    · intro h1 h2 h3 h4
      unfold ArrayField.defaultItem
      simp only [h, Bool.false_eq_true, if_false]

/-- Witness of C6 amended: the truthy default `"n/a"` is returned as it is, and
without a default a number item starts as `undefined`. -/
theorem ArrayField_defaultItem_cases_witness :
    (JSON.str "n/a").truthy = true ∧
    ArrayField.defaultItem { type := some "string", default := JSON.str "n/a" }
      = JSON.str "n/a" ∧
    ArrayField.defaultItem { type := some "number" } = JSON.undefined :=
  ⟨by decide,
   (ArrayField_defaultItem_cases { type := some "string", default := JSON.str "n/a" }).1
     (by decide),
   (ArrayField_defaultItem_cases { type := some "number" }).2 rfl |>.2.2.2.2
     (by decide) (by decide) (by decide) (by decide)⟩

/-! ## Resolving a schema node to a field component -/

/-- The six recognised type tags resolve to their field components. -/
theorem SchemaField_render_known :
    SchemaField.render { type := some "string" } = FieldComponent.StringField ∧
    SchemaField.render { type := some "date-time" } = FieldComponent.StringField ∧
    SchemaField.render { type := some "number" } = FieldComponent.StringField ∧
    SchemaField.render { type := some "array" } = FieldComponent.ArrayField ∧
    SchemaField.render { type := some "boolean" } = FieldComponent.BooleanField ∧
    SchemaField.render { type := some "object" } = FieldComponent.ObjectField := by
  decide

/-- A type that is neither one of the six tags nor the name of a member of
`Object.prototype` resolves to `UnsupportedField`; so does an absent type. -/
theorem SchemaField_render_fallback (schema : Schema)
    (hown : SchemaField.fieldComponents (propertyKey schema.type) = none)
    (hproto : propertyKey schema.type ∉ objectPrototypeKeys) :
    SchemaField.render schema = FieldComponent.UnsupportedField := by
  simp [SchemaField.render, SchemaField.lookup, hown, hproto]

/-- The types `"frobnicate"` and absent resolve to `UnsupportedField`. -/
theorem SchemaField_render_frobnicate :
    SchemaField.render { type := some "frobnicate" } = FieldComponent.UnsupportedField ∧
    SchemaField.render { type := none } = FieldComponent.UnsupportedField := by
  decide

/-- C7 on the code, for the type `"constructor"`, a string outside the six tags: the
lookup in the table finds the `constructor` member every object literal inherits, which is
truthy, so the fallback is not taken and the schema does not resolve to
`UnsupportedField`. -/
theorem SchemaField_render_inherited_key :
    SchemaField.fieldComponents "constructor" = none ∧
    SchemaField.render { type := some "constructor" } = FieldComponent.inherited "constructor" ∧
    SchemaField.render { type := some "constructor" } ≠ FieldComponent.UnsupportedField := by
  decide

/-! ## What the widgets display -/

/-- C8, as stated, fails: a text field whose value is the empty string shows
`schema.default` (here `"abc"`), and a checkbox whose value is `false` is checked when
`schema.default` is `true`. -/
theorem Widget_value_falsy_uses_default :
    TextField.value { type := some "string", default := JSON.str "abc" } (JSON.str "")
      = JSON.str "abc" ∧
    TextField.value { type := some "string", default := JSON.str "abc" } (JSON.str "")
      ≠ JSON.str "" ∧
    CheckboxField.checked { type := some "boolean", default := JSON.bool true }
      (JSON.bool false) = true := by
  refine ⟨?_, ?_, ?_⟩ <;>
    simp [TextField.value, CheckboxField.checked, JSON.or, JSON.truthy, JSON.isString,
      JSON.isBoolean]

/-- C8, amended: the text widget displays the incoming value when it is a non-empty
string, and `schema.default` when it is the empty string or not a string; the checkbox
is checked when the incoming value is `true`, and is checked exactly when
`schema.default` is truthy when the incoming value is `false` or not a boolean. -/
theorem Widget_value_truthy_or_default (schema : Schema) :
    (∀ s : String, s ≠ "" → TextField.value schema (JSON.str s) = JSON.str s) ∧
    TextField.value schema (JSON.str "") = schema.default ∧
    (∀ v : JSON, v.isString = false → TextField.value schema v = schema.default) ∧
    CheckboxField.checked schema (JSON.bool true) = true ∧
    CheckboxField.checked schema (JSON.bool false) = schema.default.truthy ∧
    (∀ v : JSON, v.isBoolean = false →
      CheckboxField.checked schema v = schema.default.truthy) := by
  refine ⟨?_, ?_, ?_, ?_, ?_, ?_⟩
  · intro s hs
    simp [TextField.value, JSON.or, JSON.truthy, JSON.isString, hs]
  · simp [TextField.value, JSON.or, JSON.truthy, JSON.isString]
  · intro v hv
    simp [TextField.value, JSON.or, JSON.truthy, hv]
  · simp [CheckboxField.checked, JSON.or, JSON.truthy, JSON.isBoolean]
  · simp [CheckboxField.checked, JSON.or, JSON.truthy, JSON.isBoolean]
  · intro v hv
    simp [CheckboxField.checked, JSON.or, JSON.truthy, hv]

/-- Witness of C8 amended: the text `"x"` is displayed as it is whatever the default,
and the number `1` fed to a text field displays the default. -/
theorem Widget_value_truthy_or_default_witness :
    "x" ≠ "" ∧ (JSON.num 1).isString = false ∧
    TextField.value { default := JSON.str "abc" } (JSON.str "x") = JSON.str "x" ∧
    TextField.value { default := JSON.str "abc" } (JSON.num 1) = JSON.str "abc" :=
  ⟨by decide, rfl,
   (Widget_value_truthy_or_default { default := JSON.str "abc" }).1 "x" (by decide),
   (Widget_value_truthy_or_default { default := JSON.str "abc" }).2.2.1 (JSON.num 1) rfl⟩

/-! ## Which widget a scalar adapter chooses -/

theorem SelectField_optionElements_contents (options : List JSON) (i : Nat) :
    (SelectField.optionElements options i).map Prod.snd = options := by
  induction options generalizing i with
  | nil => rfl
  | cons o rest ih => simp [SelectField.optionElements, ih]

/-- C9, as stated, fails twice: `StringField` chooses the select widget for an empty
`enum`, and `BooleanField` chooses the checkbox for a non-empty `enum`. -/
theorem ScalarField_enum_counterexample :
    StringField.render { type := some "string", enum := JSON.arr [] }
      = Widget.SelectField [] ∧
    BooleanField.render
        { type := some "boolean", enum := JSON.arr [JSON.bool true, JSON.bool false] }
      = Widget.CheckboxField JSON.undefined := by
  constructor <;> rfl

/-- C9, amended: `StringField` chooses the select widget exactly when `schema.enum` is
an array, empty or not, and the options rendered are then the `enum` values in declared
order; otherwise it chooses the free-text widget.  `BooleanField` chooses the checkbox
widget whatever `schema.enum` is. -/
theorem ScalarField_render_enum (schema : Schema) :
    (∀ options, schema.enum = JSON.arr options →
      StringField.render schema = Widget.SelectField options ∧
      (SelectField.optionElements options 0).map Prod.snd = options) ∧
    (schema.enum.isArray = false →
      StringField.render schema = Widget.TextField schema.description) ∧
    BooleanField.render schema = Widget.CheckboxField schema.description := by
  refine ⟨?_, ?_, rfl⟩
  · intro options h
    exact ⟨by simp [StringField.render, h], SelectField_optionElements_contents options 0⟩
  · intro h
    cases he : schema.enum <;> simp_all [StringField.render, JSON.isArray]

/-- Witness of C9 amended: the enum scenario, `enum: ["a","b","c"]`, renders the
options in declared order; without `enum` the free-text widget is chosen. -/
theorem ScalarField_render_enum_witness :
    (StringField.render
        { type := some "string", enum := JSON.arr [JSON.str "a", JSON.str "b", JSON.str "c"] }
      = Widget.SelectField [JSON.str "a", JSON.str "b", JSON.str "c"] ∧
     (SelectField.optionElements [JSON.str "a", JSON.str "b", JSON.str "c"] 0).map Prod.snd
      = [JSON.str "a", JSON.str "b", JSON.str "c"]) ∧
    StringField.render { type := some "string" } = Widget.TextField JSON.undefined :=
  ⟨(ScalarField_render_enum
      { type := some "string", enum := JSON.arr [JSON.str "a", JSON.str "b", JSON.str "c"] }).1
      [JSON.str "a", JSON.str "b", JSON.str "c"] rfl,
   (ScalarField_render_enum { type := some "string" }).2.1 rfl⟩

/-! ## Which array operations reach the ancestors -/

theorem dispatch_ArrayField_onChange (batched : Bool) (xs : List JSON) (index : Nat)
    (value : JSON) :
    dispatch (ArrayField.onChange batched index value) { items := xs } =
      ({ items := mapWithIndex (fun item i => if index = i then value else item) xs 0 },
       [mapWithIndex (fun item i => if index = i then value else item) xs 0]) := by
  cases batched <;>
    simp [dispatch, ArrayField.onChange, ArrayField.asyncSetState, Instance.setState,
      Instance.flush, Instance.mounted]

theorem dispatch_Form_onChange (batched : Bool) (validator : Validator) (props : FormProps)
    (formData : JSON) (st : FormState) :
    (dispatch (Form.onChange batched validator props formData) st).1 =
      { st with status := Status.editing, formData := formData,
                errors := validator formData props.schema } := by
  cases batched <;>
    simp [dispatch, Form.onChange, Form.validate, Instance.setState, Instance.flush,
      Instance.mounted]

/-- What each operation of an `ArrayField` does to the tree.  `add` makes the local
item sequence `items.concat(defaultItem(schema.items))` and `remove(index)` makes it the
sequence without position `index`; neither hands anything to the parent's `onChange`,
and after them the state of the enclosing object field and the session state of the form
are what they were and no host callback has been invoked.  `update(index, value)`
replaces position `index` and hands the parent's `onChange` the updated item sequence,
which the object field merges under the property and the form takes as its document. -/
theorem ArrayField_operations_and_ancestors (batched : Bool) (validator : Validator)
    (props : FormProps) (name : String) (itemsSchema : Schema) (page : Page) :
    ((Page.arrayEvent batched validator props name itemsSchema ArrayEvent.add page).1.array.items
        = concat page.array.items (ArrayField.defaultItem itemsSchema) ∧
      (dispatch (ArrayField.handle batched itemsSchema ArrayEvent.add) page.array).2 = [] ∧
      (Page.arrayEvent batched validator props name itemsSchema ArrayEvent.add page).1.object
        = page.object ∧
      (Page.arrayEvent batched validator props name itemsSchema ArrayEvent.add page).1.form
        = page.form ∧
      (Page.arrayEvent batched validator props name itemsSchema ArrayEvent.add page).2 = []) ∧
    (∀ index,
      (Page.arrayEvent batched validator props name itemsSchema (ArrayEvent.remove index)
        page).1.array.items = page.array.items.eraseIdx index ∧
      (dispatch (ArrayField.handle batched itemsSchema (ArrayEvent.remove index))
        page.array).2 = [] ∧
      (Page.arrayEvent batched validator props name itemsSchema (ArrayEvent.remove index)
        page).1.object = page.object ∧
      (Page.arrayEvent batched validator props name itemsSchema (ArrayEvent.remove index)
        page).1.form = page.form ∧
      (Page.arrayEvent batched validator props name itemsSchema (ArrayEvent.remove index)
        page).2 = []) ∧
    (∀ index value,
      (Page.arrayEvent batched validator props name itemsSchema
        (ArrayEvent.update index value) page).1.array.items =
        mapWithIndex (fun item i => if index = i then value else item) page.array.items 0 ∧
      (dispatch (ArrayField.handle batched itemsSchema (ArrayEvent.update index value))
        page.array).2 =
        [mapWithIndex (fun item i => if index = i then value else item) page.array.items 0] ∧
      (Page.arrayEvent batched validator props name itemsSchema
        (ArrayEvent.update index value) page).1.object =
        mergeState page.object
          [(name, JSON.arr (mapWithIndex (fun item i => if index = i then value else item)
            page.array.items 0))] ∧
      (Page.arrayEvent batched validator props name itemsSchema
        (ArrayEvent.update index value) page).1.form.formData =
        JSON.obj (mergeState page.object
          [(name, JSON.arr (mapWithIndex (fun item i => if index = i then value else item)
            page.array.items 0))]) ∧
      (Page.arrayEvent batched validator props name itemsSchema
        (ArrayEvent.update index value) page).1.form.status = Status.editing) := by
  obtain ⟨form, object, ⟨items⟩⟩ := page
  refine ⟨?_, ?_, ?_⟩
  · simp [Page.arrayEvent, Page.notifyObject, Page.notifyForm, ArrayField.handle,
      dispatch_ArrayField_onAddClick]
  · intro index
    simp [Page.arrayEvent, Page.notifyObject, Page.notifyForm, ArrayField.handle,
      dispatch_ArrayField_onDropClick]
  · intro index value
    simp [Page.arrayEvent, Page.notifyObject, Page.notifyForm, ArrayField.handle,
      dispatch_ArrayField_onChange, dispatch_ObjectField_onChange, dispatch_Form_onChange]

/-- In range, `remove(index)` shortens the local item sequence by one; `add` lengthens
it by one whenever the synthesized default item is not an array. -/
theorem ArrayField_operations_change_length (batched : Bool) (itemsSchema : Schema)
    (xs : List JSON) :
    (∀ index, index < xs.length →
      (dispatch (ArrayField.handle batched itemsSchema (ArrayEvent.remove index))
        { items := xs }).1.items.length + 1 = xs.length) ∧
    ((ArrayField.defaultItem itemsSchema).isArray = false →
      (dispatch (ArrayField.handle batched itemsSchema ArrayEvent.add)
        { items := xs }).1.items.length = xs.length + 1) := by
  constructor
  · intro index h
    simp only [ArrayField.handle, dispatch_ArrayField_onDropClick, List.length_eraseIdx, h,
      if_true]
    omega
  · intro h
    simp only [ArrayField.handle, dispatch_ArrayField_onAddClick]
    cases hd : ArrayField.defaultItem itemsSchema <;> simp_all [concat, JSON.isArray]

/-- C10 on the code, for an array field whose items are of type `array`: `add` hands
nothing to the parent, as the claim says, but it does not change the local item
sequence either, where the claim says it does: the synthesized default item `[]` is
spread by `concat` and nothing is appended. -/
theorem ArrayField_add_leaves_local_items :
    (dispatch (ArrayField.handle true { type := some "array" } ArrayEvent.add)
      { items := [JSON.arr [JSON.str "a"]] }).1.items = [JSON.arr [JSON.str "a"]] ∧
    (dispatch (ArrayField.handle true { type := some "array" } ArrayEvent.add)
      { items := [JSON.arr [JSON.str "a"]] }).2 = [] := by
  constructor <;> rfl

end RJSF
